import Mathlib

/-!
Verification of the identity-cache cell wiring
(pkg/identity/cache/cell/cell.go) of the Cilium repository.

The file embeds the Go source shallowly in Lean:

* the change-propagation protocol of `identityAllocatorOwner.UpdateIdentities`
  becomes a small-step transition system whose traces are the admissible
  interleavings of the Go code (sequential handler invocation, a shared
  `sync.WaitGroup` barrier, then the policy trigger);
* `identityAllocatorOwner.GetNodeSuffix`, the `config` flag registration and
  `newIdentityAllocator` become pure Lean functions;
* the allocator internals that the cell only wires together
  (`cache.NewNoopIdentityAllocator`, `RestoreLocalIdentities`,
  `ReleaseRestoredIdentities`) are modelled from the specification, as their
  bodies live outside this source slice.
-/

namespace IdentityCacheCell

/-- A numeric security identity (identity.NumericIdentity). -/
abbrev NumericIdentity := Nat

/-- A label set, the payload of an identity. -/
abbrev Labels := List String

/-- An identity map (identity.IdentityMap): numeric identity to label set. -/
abbrev IdentityMap := List (NumericIdentity × Labels)

/-! ## Change propagation: identityAllocatorOwner.UpdateIdentities

The Go body is

  wg := sync.WaitGroup
  for each handler h in identityHandlers: h.UpdateIdentities(added, deleted, wg)
  policy.GetSelectorCache().UpdateIdentities(added, deleted, wg)
  wg.Wait()
  policyUpdater.TriggerPolicyUpdates(false, "one or more identities created or deleted")

Each handler receives the batch together with the wait group and signals its
completion asynchronously (exactly once) through it; the selector-cache
consumer does the same.  The transition system below generates exactly the
event interleavings this code admits: the main thread performs the dispatches
in program order and fires the policy trigger only once the wait group has
drained, while each dispatched consumer may signal completion at any later
point. -/

/-- Observable events of one UpdateIdentities call.  Handlers are identified
by their position in the injected identity-handlers group. -/
inductive Event where
  | dispatchHandler (i : Nat) (added deleted : IdentityMap)
  | completeHandler (i : Nat)
  | dispatchSelectorCache (added deleted : IdentityMap)
  | completeSelectorCache
  | triggerPolicyUpdates (force : Bool) (reason : String)
  deriving DecidableEq, Repr

/-- State of one UpdateIdentities call: the batch, the handlers the main
thread has not yet invoked (in program order), the consumers that were
invoked but have not signalled the wait group yet, and whether the
selector cache was invoked and the trigger fired. -/
structure OwnerRun where
  added : IdentityMap
  deleted : IdentityMap
  toDispatch : List Nat
  pending : List Nat
  scDispatched : Bool
  scPending : Bool
  triggered : Bool
  deriving DecidableEq, Repr

/-- Initial state of an UpdateIdentities call for a batch and a handler
list. -/
def initState (added deleted : IdentityMap) (hs : List Nat) : OwnerRun :=
  { added := added
    deleted := deleted
    toDispatch := hs
    pending := []
    scDispatched := false
    scPending := false
    triggered := false }

/-- One admissible step of an UpdateIdentities call.  Main-thread steps
(dispatches and the trigger) follow Go program order; completion steps are
asynchronous and may interleave anywhere after the matching dispatch. -/
inductive Step : OwnerRun → Event → OwnerRun → Prop where
  | dispatchHandler (s : OwnerRun) (i : Nat) (rest : List Nat)
      (hq : s.toDispatch = i :: rest) :
      Step s (.dispatchHandler i s.added s.deleted)
        { s with toDispatch := rest, pending := i :: s.pending }
  | completeHandler (s : OwnerRun) (i : Nat) (hq : i ∈ s.pending) :
      Step s (.completeHandler i) { s with pending := s.pending.erase i }
  | dispatchSelectorCache (s : OwnerRun)
      (hq : s.toDispatch = []) (hsc : s.scDispatched = false) :
      Step s (.dispatchSelectorCache s.added s.deleted)
        { s with scDispatched := true, scPending := true }
  | completeSelectorCache (s : OwnerRun) (hq : s.scPending = true) :
      Step s .completeSelectorCache { s with scPending := false }
  | triggerPolicyUpdates (s : OwnerRun)
      (hd : s.toDispatch = []) (hsc : s.scDispatched = true)
      (hp : s.pending = []) (hscp : s.scPending = false)
      (ht : s.triggered = false) :
      Step s (.triggerPolicyUpdates false
               "one or more identities created or deleted")
        { s with triggered := true }

/-- A run: a finite admissible event trace from one state to another. -/
inductive Run : OwnerRun → List Event → OwnerRun → Prop where
  | nil (s : OwnerRun) : Run s [] s
  | cons {s s₁ s₂ : OwnerRun} {e : Event} {tr : List Event}
      (hstep : Step s e s₁) (hrun : Run s₁ tr s₂) : Run s (e :: tr) s₂

/-! ## identityAllocatorOwner.GetNodeSuffix

  switch:
    case option.Config.EnableIPv4: ip = node.GetIPv4()
    case option.Config.EnableIPv6: ip = node.GetIPv6()
  if ip == nil: log.Fatal("Node IP not available yet")
  return ip.String()

The node addresses are inputs (node.GetIPv4 / node.GetIPv6 read ambient
state); `none` as result stands for the fatal exit. -/

/-- A rendered IP address, as produced by net.IP.String(). -/
structure IPAddr where
  str : String
  deriving DecidableEq, Repr

/-- Model of identityAllocatorOwner.GetNodeSuffix.  Returns `some suffix`,
or `none` when the Go code hits log.Fatal("Node IP not available yet"). -/
def GetNodeSuffix (enableIPv4 enableIPv6 : Bool)
    (ipv4 ipv6 : Option IPAddr) : Option String :=
  let ip : Option IPAddr :=
    if enableIPv4 then ipv4
    else if enableIPv6 then ipv6
    else none
  match ip with
  | none => none
  | some a => some a.str

/-! ## Configuration: config, Flags, defaultConfig -/

/-- The cell's configuration structure (struct config). -/
structure Config where
  enableOperatorManageCIDs : Bool
  deriving DecidableEq, Repr

/-- Model of `var defaultConfig`. -/
def defaultConfig : Config := { enableOperatorManageCIDs := false }

/-- A boolean command-line flag registration. -/
structure BoolFlag where
  name : String
  defaultValue : Bool
  hidden : Bool
  deriving DecidableEq, Repr

/-- Model of config.Flags: registers a single boolean flag
"operator-manages-identities" with the config field as default and marks it
hidden. -/
def configFlags (c : Config) : List BoolFlag :=
  [{ name := "operator-manages-identities"
     defaultValue := c.enableOperatorManageCIDs
     hidden := true }]

/-! ## newIdentityAllocator -/

/-- The allocator variant chosen at construction: the full caching allocator
(with its checkpointing switch) or the no-op allocator. -/
inductive AllocatorVariant where
  | full (checkpointingEnabled : Bool)
  | noop
  deriving DecidableEq, Repr

/-- Whether a variant has checkpointing enabled. -/
def AllocatorVariant.hasCheckpointing : AllocatorVariant → Bool
  | .full c => c
  | .noop => false

/-- The provided output record of newIdentityAllocator
(identityAllocatorOut), plus the instance the lifecycle OnStop hook
closes. -/
structure AllocatorCellOut where
  identityAllocator : AllocatorVariant
  cacheIdentityAllocator : AllocatorVariant
  remoteIdentityWatcher : AllocatorVariant
  identityObservable : AllocatorVariant
  onStopCloses : AllocatorVariant
  deriving DecidableEq, Repr

/-- Model of newIdentityAllocator: when the network-policy system is
enabled it builds the full caching allocator and enables checkpointing,
otherwise the no-op allocator; the single chosen instance is provided under
every role and closed by the OnStop hook. -/
def newIdentityAllocator (netPolicyEnabled : Bool) : AllocatorCellOut :=
  let idAlloc : AllocatorVariant :=
    if netPolicyEnabled then .full true else .noop
  { identityAllocator := idAlloc
    cacheIdentityAllocator := idAlloc
    remoteIdentityWatcher := idAlloc
    identityObservable := idAlloc
    onStopCloses := idAlloc }

/-! ## Spec-modelled allocator internals

The cell wires allocator implementations whose bodies live outside this
source slice; the definitions below are modelled from the specification
(sections 3, 4.3, 4.5). -/

/-- An identity as held by the local allocator (spec section 3): numeric
identity, label set, and reference count. -/
structure Identity where
  numeric : NumericIdentity
  labels : Labels
  refcount : Nat
  deriving DecidableEq, Repr

/-- An identity-change batch (spec section 3): added and deleted maps. -/
structure IdentityChangeBatch where
  added : IdentityMap
  deleted : IdentityMap
  deriving DecidableEq, Repr

/-- An operation of the allocator contract, as exercised against either
variant. -/
inductive AllocOp where
  | allocate (labels : Labels)
  | release (n : NumericIdentity)
  | restoreLocalIdentities
  | releaseRestoredIdentities
  deriving DecidableEq, Repr

/-- Externally visible effects of one allocator operation: the
identity-change batches it emits and the number of checkpoint accesses
(loads or saves) it performs. -/
structure AllocEffects where
  batches : List IdentityChangeBatch
  checkpointOps : Nat
  deriving DecidableEq, Repr

/-- Modelled from the spec: the no-op allocator
(cache.NewNoopIdentityAllocator, spec section 4.5).  Every contract method
is a no-op that never allocates, never persists, never propagates, and
treats Restore/Release as trivially successful, so each operation emits no
batch and performs no checkpoint access. -/
def noopAllocatorEffects (op : AllocOp) : AllocEffects :=
  match op with
  | .allocate _ => { batches := [], checkpointOps := 0 }
  | .release _ => { batches := [], checkpointOps := 0 }
  | .restoreLocalIdentities => { batches := [], checkpointOps := 0 }
  | .releaseRestoredIdentities => { batches := [], checkpointOps := 0 }

/-- Combine accumulated effects with the effects of one more operation
against the no-op allocator. -/
def noopAccumulate (acc : AllocEffects) (op : AllocOp) : AllocEffects :=
  let e := noopAllocatorEffects op
  { batches := acc.batches ++ e.batches
    checkpointOps := acc.checkpointOps + e.checkpointOps }

/-- Accumulated effects of a sequence of operations against the no-op
allocator variant. -/
def noopAllocatorRunEffects (ops : List AllocOp) : AllocEffects :=
  ops.foldl noopAccumulate { batches := [], checkpointOps := 0 }

/-- An error of the checkpoint store (spec section 4.2). -/
inductive CheckpointErr where
  | unavailable
  | corrupt
  deriving DecidableEq, Repr

/-- Local allocator state relevant to restoration: the live identities and
the numeric identities still carrying a restoration hold. -/
structure LocalAllocState where
  identities : List Identity
  restored : List NumericIdentity
  deriving DecidableEq, Repr

/-- Modelled from the spec: CachingIdentityAllocator.RestoreLocalIdentities
(spec section 4.3).  It loads the checkpoint; for every entry it creates
the corresponding identity with refcount seeded at 1 (the restoration
hold) and returns the resulting map; if the load fails it returns the
store's error and proceeds with empty local state instead of aborting
startup.  The checkpoint-load outcome is the input. -/
def RestoreLocalIdentities (load : Except CheckpointErr IdentityMap) :
    Except CheckpointErr (List (NumericIdentity × Identity)) × LocalAllocState :=
  match load with
  | .error e => (.error e, { identities := [], restored := [] })
  | .ok m =>
      (.ok (m.map fun p => (p.1, { numeric := p.1, labels := p.2, refcount := 1 })),
       { identities := m.map fun p => { numeric := p.1, labels := p.2, refcount := 1 }
         restored := m.map Prod.fst })

/-- Release one reference on a numeric identity: decrement its refcount
and remove it when the count reaches zero (spec sections 4.1, 4.3). -/
def releaseOne (ids : List Identity) (n : NumericIdentity) : List Identity :=
  ids.filterMap fun id =>
    if id.numeric = n then
      if id.refcount ≤ 1 then none
      else some { id with refcount := id.refcount - 1 }
    else some id

/-- Modelled from the spec:
CachingIdentityAllocator.ReleaseRestoredIdentities (spec section 4.3).
It decrements the restoration hold on every previously restored identity
by 1, cleaning up identities that drop to zero, and forgets the holds so a
second call has nothing left to release. -/
def ReleaseRestoredIdentities (s : LocalAllocState) : LocalAllocState :=
  { identities := s.restored.foldl releaseOne s.identities
    restored := [] }

/-! ## Trace lemmas about UpdateIdentities runs -/

/-- Once the trigger has fired, no run from that state emits another
trigger event: TriggerPolicyUpdates is called exactly once per
UpdateIdentities call. -/
lemma run_triggered_no_trigger : ∀ {s : OwnerRun} {tr : List Event} {s₂ : OwnerRun},
    Run s tr s₂ → s.triggered = true →
    ∀ (b : Bool) (r : String), Event.triggerPolicyUpdates b r ∉ tr := by
  intro s tr s₂ h
  induction h with
  | nil => intro _ b r hmem; exact absurd hmem (List.not_mem_nil _)
  | cons hstep hrun ih =>
      intro ht b r hmem
      cases hstep with
      | dispatchHandler i rest hq =>
          rcases List.mem_cons.mp hmem with heq | hm
          · exact Event.noConfusion heq
          · exact ih ht b r hm
      | completeHandler i hq =>
          rcases List.mem_cons.mp hmem with heq | hm
          · exact Event.noConfusion heq
          · exact ih ht b r hm
      | dispatchSelectorCache hq hsc =>
          rcases List.mem_cons.mp hmem with heq | hm
          · exact Event.noConfusion heq
          · exact ih ht b r hm
      | completeSelectorCache hq =>
          rcases List.mem_cons.mp hmem with heq | hm
          · exact Event.noConfusion heq
          · exact ih ht b r hm
      | triggerPolicyUpdates hd hsc hp hscp htg =>
          rw [ht] at htg
          exact Bool.noConfusion htg

/-- Once the selector cache has been dispatched, no run from that state
dispatches it again: the selector cache receives each batch exactly
once per UpdateIdentities call. -/
lemma run_scDispatched_no_dispatchSC : ∀ {s : OwnerRun} {tr : List Event} {s₂ : OwnerRun},
    Run s tr s₂ → s.scDispatched = true →
    ∀ (a d : IdentityMap), Event.dispatchSelectorCache a d ∉ tr := by
  intro s tr s₂ h
  induction h with
  | nil => intro _ a d hmem; exact absurd hmem (List.not_mem_nil _)
  | cons hstep hrun ih =>
      intro ht a d hmem
      cases hstep with
      | dispatchHandler i rest hq =>
          rcases List.mem_cons.mp hmem with heq | hm
          · exact Event.noConfusion heq
          · exact ih ht a d hm
      | completeHandler i hq =>
          rcases List.mem_cons.mp hmem with heq | hm
          · exact Event.noConfusion heq
          · exact ih ht a d hm
      | dispatchSelectorCache hq hsc =>
          rw [ht] at hsc
          exact Bool.noConfusion hsc
      | completeSelectorCache hq =>
          rcases List.mem_cons.mp hmem with heq | hm
          · exact Event.noConfusion heq
          · exact ih ht a d hm
      | triggerPolicyUpdates hd hsc hp hscp htg =>
          rcases List.mem_cons.mp hmem with heq | hm
          · exact Event.noConfusion heq
          · exact ih ht a d hm

/-- Barrier invariant: whenever a run reaches the policy trigger, every
handler that was still to dispatch or still pending at the start of the
run has signalled completion before the trigger, and so has the selector
cache if it was pending or not yet dispatched. -/
lemma run_trigger_barrier : ∀ {s : OwnerRun} {tr : List Event} {s₂ : OwnerRun},
    Run s tr s₂ →
    ∀ (l₁ : List Event) (b : Bool) (r : String) (l₂ : List Event),
      tr = l₁ ++ Event.triggerPolicyUpdates b r :: l₂ →
      (∀ i, (i ∈ s.toDispatch ∨ i ∈ s.pending) → Event.completeHandler i ∈ l₁) ∧
        (s.scPending = true ∨ s.scDispatched = false →
          Event.completeSelectorCache ∈ l₁) := by
  intro s tr s₂ h
  induction h with
  | nil =>
      intro l₁ b r l₂ htr
      cases l₁ <;> simp at htr
  | cons hstep hrun ih =>
      intro l₁ b r l₂ htr
      cases l₁ with
      | nil =>
          injection htr with he htl
          subst he
          cases hstep with
          | triggerPolicyUpdates hd hsc hp hscp htg =>
              constructor
              · intro i hi
                rw [hd, hp] at hi
                simp at hi
              · intro hsc₂
                rcases hsc₂ with h₁ | h₂
                · rw [hscp] at h₁; exact Bool.noConfusion h₁
                · rw [hsc] at h₂; exact Bool.noConfusion h₂
      | cons e₀ l₁ =>
          injection htr with he htl
          subst he
          have ih₂ := ih l₁ b r l₂ htl
          cases hstep with
          | dispatchHandler i rest hq =>
              constructor
              · intro j hj
                refine List.mem_cons_of_mem _ (ih₂.1 j ?_)
                rcases hj with hj | hj
                · rw [hq] at hj
                  rcases List.mem_cons.mp hj with rfl | hj
                  · exact Or.inr (List.mem_cons_self _ _)
                  · exact Or.inl hj
                · exact Or.inr (List.mem_cons_of_mem _ hj)
              · intro hsc₂
                exact List.mem_cons_of_mem _ (ih₂.2 hsc₂)
          | completeHandler i hq =>
              constructor
              · intro j hj
                by_cases hji : j = i
                · subst hji; exact List.mem_cons_self _ _
                · refine List.mem_cons_of_mem _ (ih₂.1 j ?_)
                  rcases hj with hj | hj
                  · exact Or.inl hj
                  · exact Or.inr ((List.mem_erase_of_ne hji).mpr hj)
              · intro hsc₂
                exact List.mem_cons_of_mem _ (ih₂.2 hsc₂)
          | dispatchSelectorCache hq hsc =>
              constructor
              · intro j hj
                exact List.mem_cons_of_mem _ (ih₂.1 j hj)
              · intro _
                exact List.mem_cons_of_mem _ (ih₂.2 (Or.inl rfl))
          | completeSelectorCache hq =>
              constructor
              · intro j hj
                exact List.mem_cons_of_mem _ (ih₂.1 j hj)
              · intro _
                exact List.mem_cons_self _ _
          | triggerPolicyUpdates hd hsc hp hscp htg =>
              exact absurd
                (by rw [htl]
                    exact List.mem_append_right l₁ (List.mem_cons_self _ _))
                (run_triggered_no_trigger hrun rfl b r)

/-- Dispatch-order invariant: whenever a run dispatches the selector
cache, every handler that was still to dispatch at the start of the run
was dispatched before it, with the run's batch; and the selector cache
receives exactly that batch. -/
lemma run_dispatchSC_after_dispatches : ∀ {s : OwnerRun} {tr : List Event} {s₂ : OwnerRun},
    Run s tr s₂ →
    ∀ (l₁ : List Event) (a d : IdentityMap) (l₂ : List Event),
      tr = l₁ ++ Event.dispatchSelectorCache a d :: l₂ →
      (∀ i, i ∈ s.toDispatch → Event.dispatchHandler i s.added s.deleted ∈ l₁) ∧
        a = s.added ∧ d = s.deleted := by
  intro s tr s₂ h
  induction h with
  | nil =>
      intro l₁ a d l₂ htr
      cases l₁ <;> simp at htr
  | cons hstep hrun ih =>
      intro l₁ a d l₂ htr
      cases l₁ with
      | nil =>
          injection htr with he htl
          subst he
          cases hstep with
          | dispatchSelectorCache hq hsc =>
              refine ⟨?_, rfl, rfl⟩
              intro i hi
              rw [hq] at hi
              simp at hi
      | cons e₀ l₁ =>
          injection htr with he htl
          subst he
          have ih₂ := ih l₁ a d l₂ htl
          cases hstep with
          | dispatchHandler i rest hq =>
              refine ⟨?_, ih₂.2.1, ih₂.2.2⟩
              intro j hj
              rw [hq] at hj
              rcases List.mem_cons.mp hj with rfl | hj
              · exact List.mem_cons_self _ _
              · exact List.mem_cons_of_mem _ (ih₂.1 j hj)
          | completeHandler i hq =>
              exact ⟨fun j hj => List.mem_cons_of_mem _ (ih₂.1 j hj),
                ih₂.2.1, ih₂.2.2⟩
          | dispatchSelectorCache hq hsc =>
              exact absurd
                (by rw [htl]
                    exact List.mem_append_right l₁ (List.mem_cons_self _ _))
                (run_scDispatched_no_dispatchSC hrun rfl a d)
          | completeSelectorCache hq =>
              exact ⟨fun j hj => List.mem_cons_of_mem _ (ih₂.1 j hj),
                ih₂.2.1, ih₂.2.2⟩
          | triggerPolicyUpdates hd hsc hp hscp htg =>
              refine ⟨?_, ih₂.2.1, ih₂.2.2⟩
              intro j hj
              rw [hd] at hj
              simp at hj

/-- Arguments of every trigger event: any trigger emitted during a run is
a non-forced recomputation tagged with the fixed reason string. -/
lemma run_trigger_args : ∀ {s : OwnerRun} {tr : List Event} {s₂ : OwnerRun},
    Run s tr s₂ →
    ∀ (b : Bool) (r : String), Event.triggerPolicyUpdates b r ∈ tr →
      b = false ∧ r = "one or more identities created or deleted" := by
  intro s tr s₂ h
  induction h with
  | nil => intro b r hmem; exact absurd hmem (List.not_mem_nil _)
  | cons hstep hrun ih =>
      intro b r hmem
      rcases List.mem_cons.mp hmem with heq | hm
      · cases hstep with
        | dispatchHandler i rest hq => exact Event.noConfusion heq
        | completeHandler i hq => exact Event.noConfusion heq
        | dispatchSelectorCache hq hsc => exact Event.noConfusion heq
        | completeSelectorCache hq => exact Event.noConfusion heq
        | triggerPolicyUpdates hd hsc hp hscp htg =>
            injection heq with hb hr
            exact ⟨hb, hr⟩
      · exact ih b r hm

/-! ## A concrete admissible run, used to instantiate the theorems -/

/-- A complete admissible trace of one UpdateIdentities call with one
registered handler (index 0) and an empty batch: the handler is invoked,
the selector cache is invoked, the handler signals, the selector cache
signals, the trigger fires. -/
def exampleTrace : List Event :=
  [Event.dispatchHandler 0 [] [],
   Event.dispatchSelectorCache [] [],
   Event.completeHandler 0,
   Event.completeSelectorCache,
   Event.triggerPolicyUpdates false "one or more identities created or deleted"]

/-- Final state of the example trace. -/
def exampleFinal : OwnerRun :=
  { added := []
    deleted := []
    toDispatch := []
    pending := []
    scDispatched := true
    scPending := false
    triggered := true }

/-- The example trace is an admissible run of UpdateIdentities. -/
lemma exampleRun : Run (initState [] [] [0]) exampleTrace exampleFinal := by
  refine Run.cons (Step.dispatchHandler _ 0 [] rfl) ?_
  refine Run.cons (Step.dispatchSelectorCache _ rfl rfl) ?_
  refine Run.cons (Step.completeHandler _ 0 (by decide)) ?_
  refine Run.cons (Step.completeSelectorCache _ rfl) ?_
  exact Run.cons (Step.triggerPolicyUpdates _ rfl rfl (by decide) rfl rfl) (Run.nil _)

/-! ## Claim theorems -/

/-- Claim C1, as stated, is false on the code: UpdateIdentities does not
wait for the other handlers to acknowledge completion before dispatching
the batch to the policy selector-cache consumer.  The admissible run below
dispatches the selector cache while handler 0 is still pending, so the
consumer's processing can run concurrently with the handlers. -/
theorem updateIdentities_sc_before_handler_completion :
    ¬ (∀ (added deleted : IdentityMap) (hs : List Nat) (tr : List Event)
        (s : OwnerRun) (l₁ : List Event) (a d : IdentityMap) (l₂ : List Event),
        Run (initState added deleted hs) tr s →
        tr = l₁ ++ Event.dispatchSelectorCache a d :: l₂ →
        ∀ i ∈ hs, Event.completeHandler i ∈ l₁) := by
  intro h
  have hmem := h [] [] [0] exampleTrace exampleFinal
      [Event.dispatchHandler 0 [] []] [] []
      [Event.completeHandler 0, Event.completeSelectorCache,
       Event.triggerPolicyUpdates false "one or more identities created or deleted"]
      exampleRun rfl 0 (by decide)
  exact absurd hmem (by decide)

/-- Claim C1 (amended): in every admissible run of UpdateIdentities, the
policy selector-cache consumer is dispatched the batch only after every
other registered handler has been invoked with the same batch; the call
does not wait for those handlers to acknowledge completion first, so the
consumer may process concurrently with them, and completion of all
consumers is awaited only before the policy trigger. -/
theorem updateIdentities_sc_dispatched_after_invocations :
    ∀ (added deleted : IdentityMap) (hs : List Nat) (tr : List Event)
      (s : OwnerRun) (l₁ : List Event) (a d : IdentityMap) (l₂ : List Event),
      Run (initState added deleted hs) tr s →
      tr = l₁ ++ Event.dispatchSelectorCache a d :: l₂ →
      (∀ i ∈ hs, Event.dispatchHandler i added deleted ∈ l₁) ∧
        a = added ∧ d = deleted := by
  intro added deleted hs tr s l₁ a d l₂ h htr
  have hmain := run_dispatchSC_after_dispatches h l₁ a d l₂ htr
  exact ⟨fun i hi => hmain.1 i hi, hmain.2.1, hmain.2.2⟩

/-- Witness for the amended claim C1, instantiated on the example run:
handler 0 is dispatched before the selector cache, with the same (empty)
batch. -/
theorem updateIdentities_sc_dispatched_after_invocations_witness :
    (∀ i ∈ ([0] : List Nat),
        Event.dispatchHandler i [] [] ∈ [Event.dispatchHandler 0 [] []]) ∧
      ([] : IdentityMap) = [] ∧ ([] : IdentityMap) = [] :=
  updateIdentities_sc_dispatched_after_invocations [] [] [0]
    exampleTrace exampleFinal [Event.dispatchHandler 0 [] []] [] []
    [Event.completeHandler 0, Event.completeSelectorCache,
     Event.triggerPolicyUpdates false "one or more identities created or deleted"]
    exampleRun rfl

/-- Claim C2: in every admissible run of UpdateIdentities, the policy
recomputation trigger fires only after every registered handler and the
selector-cache consumer have all signalled completion on the shared wait
group. -/
theorem updateIdentities_trigger_after_barrier :
    ∀ (added deleted : IdentityMap) (hs : List Nat) (tr : List Event)
      (s : OwnerRun) (l₁ : List Event) (b : Bool) (r : String) (l₂ : List Event),
      Run (initState added deleted hs) tr s →
      tr = l₁ ++ Event.triggerPolicyUpdates b r :: l₂ →
      (∀ i ∈ hs, Event.completeHandler i ∈ l₁) ∧
        Event.completeSelectorCache ∈ l₁ := by
  intro added deleted hs tr s l₁ b r l₂ h htr
  have hmain := run_trigger_barrier h l₁ b r l₂ htr
  exact ⟨fun i hi => hmain.1 i (Or.inl hi), hmain.2 (Or.inr rfl)⟩

/-- Witness for claim C2, instantiated on the example run: handler 0 and
the selector cache have both signalled completion before the trigger. -/
theorem updateIdentities_trigger_after_barrier_witness :
    (∀ i ∈ ([0] : List Nat),
        Event.completeHandler i ∈
          [Event.dispatchHandler 0 [] [], Event.dispatchSelectorCache [] [],
           Event.completeHandler 0, Event.completeSelectorCache]) ∧
      Event.completeSelectorCache ∈
        [Event.dispatchHandler 0 [] [], Event.dispatchSelectorCache [] [],
         Event.completeHandler 0, Event.completeSelectorCache] :=
  updateIdentities_trigger_after_barrier [] [] [0] exampleTrace exampleFinal
    [Event.dispatchHandler 0 [] [], Event.dispatchSelectorCache [] [],
     Event.completeHandler 0, Event.completeSelectorCache]
    false "one or more identities created or deleted" [] exampleRun rfl

/-- Claim C3: every policy recomputation request emitted by an
UpdateIdentities run carries the fixed human-readable reason string and a
forced-full-recompute flag that is always false. -/
theorem updateIdentities_trigger_reason_and_flag :
    ∀ (added deleted : IdentityMap) (hs : List Nat) (tr : List Event)
      (s : OwnerRun) (b : Bool) (r : String),
      Run (initState added deleted hs) tr s →
      Event.triggerPolicyUpdates b r ∈ tr →
      b = false ∧ r = "one or more identities created or deleted" := by
  intro added deleted hs tr s b r h hmem
  exact run_trigger_args h b r hmem

/-- Witness for claim C3, instantiated on the example run and its trigger
event. -/
theorem updateIdentities_trigger_reason_and_flag_witness :
    false = false ∧
      "one or more identities created or deleted" =
        "one or more identities created or deleted" :=
  updateIdentities_trigger_reason_and_flag [] [] [0] exampleTrace exampleFinal
    false "one or more identities created or deleted" exampleRun (by decide)

/-- Claim C4: when the network-policy subsystem is disabled, the allocator
provided under every role is the no-op variant; no sequence of allocator
operations against the no-op variant ever produces an identity-change
batch or touches a checkpoint; and only the full variant (chosen when the
subsystem is enabled) has checkpointing enabled. -/
theorem noop_when_policy_disabled :
    ∀ (ops : List AllocOp) (b : Bool),
      (newIdentityAllocator false).identityAllocator = AllocatorVariant.noop ∧
      (newIdentityAllocator false).cacheIdentityAllocator = AllocatorVariant.noop ∧
      (newIdentityAllocator false).remoteIdentityWatcher = AllocatorVariant.noop ∧
      (newIdentityAllocator false).identityObservable = AllocatorVariant.noop ∧
      (noopAllocatorRunEffects ops).batches = [] ∧
      (noopAllocatorRunEffects ops).checkpointOps = 0 ∧
      AllocatorVariant.hasCheckpointing ((newIdentityAllocator b).identityAllocator)
        = b := by
  intro ops b
  have hacc : ∀ (acc : AllocEffects) (op : AllocOp), noopAccumulate acc op = acc := by
    intro acc op
    cases op <;> simp [noopAccumulate, noopAllocatorEffects]
  have hfold : ∀ (l : List AllocOp) (acc : AllocEffects),
      List.foldl noopAccumulate acc l = acc := by
    intro l
    induction l with
    | nil => intro acc; rfl
    | cons op l ih => intro acc; rw [List.foldl_cons, hacc]; exact ih acc
  refine ⟨rfl, rfl, rfl, rfl, ?_, ?_, ?_⟩
  · rw [noopAllocatorRunEffects, hfold]
  · rw [noopAllocatorRunEffects, hfold]
  · cases b <;> rfl

/-- Claim C5: RestoreLocalIdentities loads the checkpoint and, for every
entry, creates the corresponding identity with refcount seeded at 1,
returning the resulting map and recording the restoration holds; if the
load fails it returns the store's error and proceeds with empty local
state rather than aborting. -/
theorem restoreLocalIdentities_spec :
    ∀ (m : IdentityMap) (e : CheckpointErr),
      RestoreLocalIdentities (.error e) =
        (.error e, { identities := [], restored := [] }) ∧
      (RestoreLocalIdentities (.ok m)).1 =
        .ok (m.map fun p =>
          (p.1, { numeric := p.1, labels := p.2, refcount := 1 })) ∧
      (∀ q ∈ ((RestoreLocalIdentities (.ok m)).2).identities, q.refcount = 1) ∧
      ((RestoreLocalIdentities (.ok m)).2).restored = m.map Prod.fst := by
  intro m e
  refine ⟨rfl, rfl, ?_, rfl⟩
  intro q hq
  simp only [RestoreLocalIdentities, List.mem_map] at hq
  obtain ⟨p, hp, hpq⟩ := hq
  rw [← hpq]

/-- Witness for claim C5, instantiated on the checkpoint containing entry
5 with labels app=bar, and on a corrupt load. -/
theorem restoreLocalIdentities_spec_witness :
    RestoreLocalIdentities (.error CheckpointErr.corrupt) =
      (.error CheckpointErr.corrupt, { identities := [], restored := [] }) ∧
    ({ numeric := 5, labels := ["app=bar"], refcount := 1 } : Identity).refcount
      = 1 :=
  ⟨(restoreLocalIdentities_spec [(5, ["app=bar"])] CheckpointErr.corrupt).1,
   (restoreLocalIdentities_spec [(5, ["app=bar"])] CheckpointErr.corrupt).2.2.1
     { numeric := 5, labels := ["app=bar"], refcount := 1 } (by decide)⟩

/-- Claim C6: after a single RestoreLocalIdentities, releasing the
restored identities twice equals releasing them once — the second
ReleaseRestoredIdentities finds no recorded holds and is a no-op (this
holds from any state, the restored one in particular). -/
theorem releaseRestoredIdentities_idempotent :
    ∀ (m : IdentityMap),
      ReleaseRestoredIdentities
          (ReleaseRestoredIdentities ((RestoreLocalIdentities (.ok m)).2)) =
        ReleaseRestoredIdentities ((RestoreLocalIdentities (.ok m)).2) ∧
      ∀ (s : LocalAllocState),
        ReleaseRestoredIdentities (ReleaseRestoredIdentities s) =
          ReleaseRestoredIdentities s := by
  intro m
  exact ⟨rfl, fun s => rfl⟩

/-- Claim C7: GetNodeSuffix is fatal (no suffix is returned) whenever no
node address is available under the enabled address families. -/
theorem getNodeSuffix_fatal_when_ip_unknown :
    ∀ (e4 e6 : Bool) (ipv4 ipv6 : Option IPAddr),
      (e4 = true → ipv4 = none) → (e6 = true → ipv6 = none) →
      GetNodeSuffix e4 e6 ipv4 ipv6 = none := by
  intro e4 e6 ipv4 ipv6 h4 h6
  cases e4 <;> cases e6 <;> simp_all [GetNodeSuffix]

/-- Witness for claim C7: with both families enabled and no address known,
GetNodeSuffix is fatal. -/
theorem getNodeSuffix_fatal_when_ip_unknown_witness :
    GetNodeSuffix true true none none = none :=
  getNodeSuffix_fatal_when_ip_unknown true true none none
    (fun _ => rfl) (fun _ => rfl)

/-- Claim C8: the configuration surface registers exactly one boolean
flag, named operator-manages-identities, with default false, marked
hidden. -/
theorem config_single_hidden_flag :
    configFlags defaultConfig =
      [{ name := "operator-manages-identities"
         defaultValue := false
         hidden := true }] ∧
      (configFlags defaultConfig).length = 1 :=
  ⟨rfl, rfl⟩

/-- Claim C9: newIdentityAllocator chooses one allocator instance at
construction — the full caching allocator with checkpointing when the
network-policy system is enabled, the no-op allocator otherwise — and
provides that same instance under all four roles; the OnStop hook closes
that same instance. -/
theorem newIdentityAllocator_single_instance :
    ∀ (b : Bool),
      (newIdentityAllocator b).cacheIdentityAllocator =
          (newIdentityAllocator b).identityAllocator ∧
        (newIdentityAllocator b).remoteIdentityWatcher =
          (newIdentityAllocator b).identityAllocator ∧
        (newIdentityAllocator b).identityObservable =
          (newIdentityAllocator b).identityAllocator ∧
        (newIdentityAllocator b).onStopCloses =
          (newIdentityAllocator b).identityAllocator ∧
        (newIdentityAllocator b).identityAllocator =
          (if b then AllocatorVariant.full true else AllocatorVariant.noop) := by
  intro b
  exact ⟨rfl, rfl, rfl, rfl, rfl⟩

/-- Claim C10: GetNodeSuffix prefers IPv4 — with IPv4 enabled the result
is independent of the IPv6 address and equals the rendered IPv4 address;
the IPv6 address is consulted only when IPv4 is disabled and IPv6 is
enabled, and with both disabled the call is fatal. -/
theorem getNodeSuffix_prefers_ipv4 :
    ∀ (e6 : Bool) (ipv4 ipv6 ipv6' : Option IPAddr),
      GetNodeSuffix true e6 ipv4 ipv6 = GetNodeSuffix true e6 ipv4 ipv6' ∧
      GetNodeSuffix true e6 ipv4 ipv6 = Option.map IPAddr.str ipv4 ∧
      GetNodeSuffix false true ipv4 ipv6 = Option.map IPAddr.str ipv6 ∧
      GetNodeSuffix false false ipv4 ipv6 = none := by
  intro e6 ipv4 ipv6 ipv6'
  refine ⟨rfl, ?_, ?_, rfl⟩
  · cases ipv4 <;> rfl
  · cases ipv6 <;> rfl

end IdentityCacheCell
